import Mathlib

/-!
# Verification of the slurp build-staging proxy

Shallow embedding of the slurp repository (Go) in Lean 4, covering:
the ssh ingest server (user authentication, channel request handling,
the rsync child process and its exit-status translation), host-key
provisioning, and the hoarder blob backend (scheme selection, REST
request construction with https-to-http fallback, blob read/write).

Functions keep the names of the Go functions they embed; external
effects (the filesystem, process start and wait, the HTTP transport)
are passed in explicitly as values or functions.
-/

namespace Slurp

/-! ## SSH user authentication

Embeds userAuth from the ssh package: it loops over the authUsers
slice and accepts exactly when the claimed username equals some
permitted user; the offered public key is never inspected. Success is
the Go return (nil, nil), failure the Go error "User not found!".
-/

def userAuth (authUsers : List String) (user : String) (key : String) : Except String Unit :=
  match authUsers with
  | [] => Except.error "User not found!"
  | permittedUser :: rest =>
    if user = permittedUser then Except.ok () else userAuth rest user key

/-! ## Exit-status translation

Embeds the tail of waitedRun: Go renders the child ProcessState as a
string ("exit status N" for a normal exit, "signal: NAME" for an
abnormal one), checks strings.Contains(s, "exit status"), splits on
single spaces and reads word index 2.  Go strings are modelled as
List Char; natChars embeds the decimal rendering of the exit code,
goContains embeds strings.Contains, goSplitSpace embeds
strings.Split(s, " ").
-/

def natChars (n : Nat) : List Char :=
  if h : n < 10 then [Char.ofNat (48 + n)]
  else natChars (n / 10) ++ [Char.ofNat (48 + n % 10)]
termination_by n
decreasing_by exact Nat.div_lt_self (by omega) (by omega)

def goContains : List Char → List Char → Bool
  | [], sub => sub.isEmpty
  | c :: rest, sub => sub.isPrefixOf (c :: rest) || goContains rest sub

def splitAux : List Char → List Char → List (List Char)
  | [], acc => [acc.reverse]
  | c :: rest, acc =>
    if c = ' ' then acc.reverse :: splitAux rest []
    else splitAux rest (c :: acc)

def goSplitSpace (s : List Char) : List (List Char) := splitAux s []

/-- Abnormal-termination causes, with the strings Go prints for them. -/
inductive Signal
  | hup | int | quit | ill | abrt | kill | segv | pipe | alrm | term
deriving DecidableEq

def Signal.goString : Signal → List Char
  | .hup => "hangup".toList
  | .int => "interrupt".toList
  | .quit => "quit".toList
  | .ill => "illegal instruction".toList
  | .abrt => "aborted".toList
  | .kill => "killed".toList
  | .segv => "segmentation fault".toList
  | .pipe => "broken pipe".toList
  | .alrm => "alarm clock".toList
  | .term => "terminated".toList

/-- Outcome of waiting on the child: a numeric exit code, or abnormal
termination by a signal. -/
inductive ProcState
  | exited (code : Nat)
  | signaled (sig : Signal)
deriving DecidableEq

/-- The string os.ProcessState.String() produces for each outcome. -/
def ProcState.goString : ProcState → List Char
  | .exited code => "exit status ".toList ++ natChars code
  | .signaled sig => "signal: ".toList ++ sig.goString

/-- The 4-byte buffer waitedRun sends as the exit-status payload,
computed from the ProcessState string exactly as the Go does. -/
def exitStatusBuffer (stateStr : List Char) : List Nat :=
  if goContains stateStr "exit status".toList then
    if (goSplitSpace stateStr).getD 2 [] ≠ "0".toList then [0, 0, 0, 1]
    else [0, 0, 0, 0]
  else [0, 0, 0, 2]

/-! ## Channel handling and the rsync child process

Embeds handleChannel and waitedRun.  The exec.Cmd built by waitedRun
is recorded as a SpawnSpec; the observable actions waitedRun performs
on the ssh channel form an Event trace.  Whether cmd.Start() succeeds
(and yields a process handle) and what state the wait returns are
external inputs, passed as a StartOutcome.
-/

/-- Where a child standard stream is wired: the ssh channel itself, or
the channel's stderr stream. -/
inductive StdStream
  | channel
  | channelStderr
deriving DecidableEq

structure SpawnSpec where
  argv : List String
  dir : String
  stdin : StdStream
  stdout : StdStream
  stderr : StdStream
deriving DecidableEq

/-- The fixed command waitedRun builds:
rsync --server -vlogDtprRe.iLsfx --delete . build/ with cmd.Dir set to
the configured build directory and stdin/stdout/stderr wired to the
channel. -/
def rsyncSpec (buildDir build : String) : SpawnSpec :=
  { argv := ["rsync", "--server", "-vlogDtprRe.iLsfx", "--delete", ".", build ++ "/"]
    dir := buildDir
    stdin := StdStream.channel
    stdout := StdStream.channel
    stderr := StdStream.channelStderr }

/-- External outcome of cmd.Start(): failure (an error, or a nil
Process handle), or a started process that the wait later reports in
the given state. -/
inductive StartOutcome
  | startFailed
  | started (st : ProcState)
deriving DecidableEq

/-- Observable actions waitedRun performs on the ssh channel. -/
inductive Event
  | spawn (spec : SpawnSpec)
  | sendExitStatus (buf : List Nat)
  | closeChannel
deriving DecidableEq

/-- Embeds waitedRun as its event trace.  channel.Close() is deferred,
so it is the last event on every path.  If Start fails (or yields no
process), waitedRun returns early: no wait, no exit-status request.
Otherwise the process runs, is waited on, and the translated
exit-status buffer is sent before the deferred close. -/
def waitedRun (buildDir build : String) (outcome : StartOutcome) : List Event :=
  match outcome with
  | .startFailed => [Event.closeChannel]
  | .started st =>
    [Event.spawn (rsyncSpec buildDir build),
     Event.sendExitStatus (exitStatusBuffer st.goString),
     Event.closeChannel]

/-- A channel request, as handleChannel's request loop sees it: the
request type string and, for exec, the raw payload bytes. -/
inductive SshRequest
  | exec (payload : List Nat)
  | env
  | other (reqType : String)
deriving DecidableEq

/-- One iteration of handleChannel's request loop: the reply sent (none
when the Go code hits continue and never calls req.Reply) and the
events performed on the channel. -/
structure StepResult where
  reply : Option Bool
  events : List Event
deriving DecidableEq

/-- Embeds the switch in handleChannel's request loop.  For exec with a
payload shorter than 4 bytes the Go sets ok = false and continues,
skipping req.Reply; otherwise it runs waitedRun and replies true.  env
is acknowledged with no effect; any other type is replied false.
The build argument is the authenticated session username
(sshConn.Conn.User()), passed down by handleConnection. -/
def handleRequest (buildDir build : String) (outcome : StartOutcome) :
    SshRequest → StepResult
  | .exec payload =>
    if payload.length < 4 then { reply := none, events := [] }
    else { reply := some true, events := waitedRun buildDir build outcome }
  | .env => { reply := some true, events := [] }
  | .other _ => { reply := some false, events := [] }

/-! ## Host-key provisioning

Embeds the ssh package's key setup (the function that checks for the
host key file and generates one when absent).  The filesystem is an
explicit value: an association list of files (content and permission
bits) plus the set of existing directories.  Key generation is an
external input (genKeyPair draws randomness), passed as a GenOutcome
carrying the PEM-encoded private key it produced.
-/

structure FileEntry where
  content : String
  perm : Nat
deriving DecidableEq

structure FS where
  files : List (String × FileEntry)
  dirs : List String
deriving DecidableEq

def findFile : List (String × FileEntry) → String → Option FileEntry
  | [], _ => none
  | (q, e) :: rest, p => if p = q then some e else findFile rest p

/-- Embeds os.Stat on the modelled filesystem. -/
def FS.stat (fs : FS) (p : String) : Option FileEntry := findFile fs.files p

/-- External outcome of genKeyPair: the authorized-keys form of the
public key and the PEM encoding of the private key, or failure. -/
inductive GenOutcome
  | ok (pubKey pemPrivate : String)
  | genFail
deriving DecidableEq

/-- Embeds filepath.Dir for the paths involved: everything up to the
last path separator (the parent directory of p). -/
def dirOf (p : String) : String :=
  match (p.toList.reverse.dropWhile (fun c => c ≠ '/')) with
  | [] => "."
  | _ :: parent => if parent = [] then "/" else String.mk parent.reverse

/-- Embeds the ssh package's host-key setup: stat the configured path
and return immediately when a file is there; otherwise generate a key
pair, create the parent directory, and write the PEM private key with
permission 0600. -/
def ensureHostKey (sshHostKey : String) (gen : GenOutcome) (fs : FS) :
    FS × Except String Unit :=
  match fs.stat sshHostKey with
  | some _ => (fs, Except.ok ())
  | none =>
    match gen with
    | .genFail => (fs, Except.error "Failed to generate host key")
    | .ok _pubKey pemPrivate =>
      ({ files := (sshHostKey, { content := pemPrivate, perm := 0o600 }) :: fs.files
         dirs := dirOf sshHostKey :: fs.dirs },
       Except.ok ())

/-! ## Blob backend (hoarder)

Embeds backend/backend.go and backend/hoarder.go.  The HTTP transport
is an external input: a function from the built request to an outcome
(a response, or a transport error from client.Do).  rest returns both
the list of requests it issued, in order, and its Go result; the Go
pair (*http.Response, error) is an Except since every error return in
the source pairs with a nil response and every success with a nil
error.
-/

structure HttpRequest where
  method : String
  scheme : String
  host : String
  path : String
  header : List (String × String)
  body : Option String
deriving DecidableEq

structure HttpResponse where
  statusCode : Nat
  body : String
deriving DecidableEq

inductive SendOutcome
  | ok (res : HttpResponse)
  | transportErr (msg : String)
deriving DecidableEq

/-- The fixed message rest builds for a 401 response. -/
def authTokenErrMsg : String :=
  "401 Unauthorized. Please specify backend api token (-T \x27backend-token\x27)"

/-- A request as rest builds it: method, uri scheme://host/path, the
X-AUTH-TOKEN header carrying the configured store token, and the body. -/
def mkReq (method scheme storeAddr path storeToken : String)
    (body : Option String) : HttpRequest :=
  { method := method
    scheme := scheme
    host := storeAddr
    path := path
    header := [("X-AUTH-TOKEN", storeToken)]
    body := body }

/-- Embeds hoarder.rest.  The first request always uses the https
scheme against config.StoreAddr; if client.Do fails, one retry is made
with the http scheme against the same host, and if that also fails the
original error is returned.  A surviving response with status 401 is
replaced by the fixed authorization error. -/
def rest (send : HttpRequest → SendOutcome)
    (storeAddr storeToken method path : String) (body : Option String) :
    List HttpRequest × Except String HttpResponse :=
  match send (mkReq method "https" storeAddr path storeToken body) with
  | .ok res =>
    if res.statusCode = 401 then
      ([mkReq method "https" storeAddr path storeToken body],
       Except.error authTokenErrMsg)
    else
      ([mkReq method "https" storeAddr path storeToken body], Except.ok res)
  | .transportErr e =>
    match send (mkReq method "http" storeAddr path storeToken body) with
    | .ok res =>
      if res.statusCode = 401 then
        ([mkReq method "https" storeAddr path storeToken body,
          mkReq method "http" storeAddr path storeToken body],
         Except.error authTokenErrMsg)
      else
        ([mkReq method "https" storeAddr path storeToken body,
          mkReq method "http" storeAddr path storeToken body], Except.ok res)
    | .transportErr _ =>
      ([mkReq method "https" storeAddr path storeToken body,
        mkReq method "http" storeAddr path storeToken body], Except.error e)

/-- Result of hoarder.readBlob.  The Go returns res.Body, err; when
rest failed it returned a nil response, and the field access res.Body
dereferences a nil pointer, which is a runtime panic, modelled as
nilDeref. -/
inductive BlobReadOutcome
  | ok (bodyStream : String)
  | nilDeref
deriving DecidableEq

/-- Embeds hoarder.readBlob. -/
def readBlob (send : HttpRequest → SendOutcome)
    (storeAddr storeToken blobId : String) : BlobReadOutcome :=
  match (rest send storeAddr storeToken "GET" ("blobs/" ++ blobId) none).2 with
  | .ok res => BlobReadOutcome.ok res.body
  | .error _ => BlobReadOutcome.nilDeref

/-- Embeds hoarder.writeBlob: POST blobs/id with the blob as body,
discarding the response. -/
def writeBlob (send : HttpRequest → SendOutcome)
    (storeAddr storeToken blobId blob : String) : Except String Unit :=
  match (rest send storeAddr storeToken "POST" ("blobs/" ++ blobId) (some blob)).2 with
  | .ok _ => Except.ok ()
  | .error e => Except.error e

/-- Embeds the hoarder health probe (GET ping), whose error is the
result of backend initialization. -/
def pingBackend (send : HttpRequest → SendOutcome)
    (storeAddr storeToken : String) : Except String Unit :=
  match (rest send storeAddr storeToken "GET" "ping" none).2 with
  | .ok _ => Except.ok ()
  | .error e => Except.error e

inductive Proto
  | http
  | https
deriving DecidableEq

/-- Embeds the scheme switch in backend.Initialize: the hoarder scheme
selects the insecure (plain http) variant, hoarders and any unknown
scheme select the secure (https) variant. -/
def schemeSelect (scheme : String) : Proto :=
  match scheme with
  | "hoarder" => Proto.http
  | "hoarders" => Proto.https
  | _ => Proto.https

def Proto.scheme : Proto → String
  | .http => "http"
  | .https => "https"

/-! ## Helper lemmas -/

theorem isPrefixOf_append (l m : List Char) : l.isPrefixOf (l ++ m) = true := by
  induction l with
  | nil => simp [List.isPrefixOf]
  | cons a as ih => simp [List.isPrefixOf, ih]

theorem goContains_of_prefix (s sub : List Char) (h : sub.isPrefixOf s = true) :
    goContains s sub = true := by
  cases s with
  | nil =>
    cases sub with
    | nil => rfl
    | cons b bs => simp [List.isPrefixOf] at h
  | cons c rest => simp [goContains, h]

theorem digitChar_ne_space (d : Nat) (hd : d < 10) : Char.ofNat (48 + d) ≠ ' ' := by
  interval_cases d <;> decide

theorem natChars_ne_space (n : Nat) : ∀ c ∈ natChars n, c ≠ ' ' := by
  induction n using Nat.strong_induction_on with
  | _ n ih =>
    rw [natChars.eq_def]
    split
    · next h =>
      intro c hc
      simp only [List.mem_singleton] at hc
      subst hc
      exact digitChar_ne_space n h
    · next h =>
      intro c hc
      rw [List.mem_append] at hc
      rcases hc with hc | hc
      · exact ih (n / 10) (Nat.div_lt_self (by omega) (by omega)) c hc
      · simp only [List.mem_singleton] at hc
        subst hc
        exact digitChar_ne_space (n % 10) (Nat.mod_lt _ (by omega))

theorem natChars_ne_nil (n : Nat) : natChars n ≠ [] := by
  rw [natChars.eq_def]
  split <;> simp

theorem natChars_zero : natChars 0 = ['0'] := by
  rw [natChars.eq_def, dif_pos (by omega : (0 : Nat) < 10)]

theorem natChars_eq_zero_of (n : Nat) (h : natChars n = ['0']) : n = 0 := by
  by_contra hn
  rw [natChars.eq_def] at h
  split at h
  · next hlt =>
    interval_cases n
    · exact hn rfl
    all_goals exact absurd h (by decide)
  · next hlt =>
    have hne := natChars_ne_nil (n / 10)
    have hlen := congrArg List.length h
    simp only [List.length_append, List.length_cons, List.length_nil] at hlen
    exact hne (List.length_eq_zero.mp (by omega))

theorem splitAux_no_space (l acc : List Char) (h : ∀ c ∈ l, c ≠ ' ') :
    splitAux l acc = [acc.reverse ++ l] := by
  induction l generalizing acc with
  | nil => simp [splitAux]
  | cons c rest ih =>
    have hc : c ≠ ' ' := h c (List.mem_cons_self c rest)
    simp only [splitAux, if_neg hc,
      ih (c :: acc) (fun d hd => h d (List.mem_cons_of_mem c hd))]
    simp

theorem goSplitSpace_exited (c : Nat) :
    goSplitSpace ("exit status ".toList ++ natChars c) =
      [['e', 'x', 'i', 't'], ['s', 't', 'a', 't', 'u', 's'], natChars c] := by
  have hpre : "exit status ".toList =
      ['e', 'x', 'i', 't', ' ', 's', 't', 'a', 't', 'u', 's', ' '] := by decide
  unfold goSplitSpace
  rw [hpre]
  simp [splitAux, splitAux_no_space (natChars c) [] (natChars_ne_space c)]

theorem goContains_exited (c : Nat) :
    goContains ("exit status ".toList ++ natChars c) "exit status".toList = true := by
  apply goContains_of_prefix
  have h : "exit status ".toList = "exit status".toList ++ [' '] := by decide
  rw [h, List.append_assoc]
  exact isPrefixOf_append _ _

theorem exitStatusBuffer_exited (c : Nat) :
    exitStatusBuffer (ProcState.exited c).goString =
      if c = 0 then [0, 0, 0, 0] else [0, 0, 0, 1] := by
  unfold exitStatusBuffer ProcState.goString
  rw [goContains_exited c, goSplitSpace_exited c]
  have h0str : "0".toList = ['0'] := by decide
  by_cases h0 : c = 0
  · subst h0
    rw [natChars_zero]
    simp
  · have hne : natChars c ≠ ['0'] := fun h => h0 (natChars_eq_zero_of c h)
    rw [h0str]
    simp [hne, h0]

theorem exitStatusBuffer_signaled (sig : Signal) :
    exitStatusBuffer (ProcState.signaled sig).goString = [0, 0, 0, 2] := by
  cases sig <;> decide

/-! ## Claim theorems -/

/-- Claim C1: for every claimed username and every offered key, userAuth
accepts the session iff the username is a member of the authorized user
list; for a member the result is independent of the offered key, and for
a non-member it rejects with the authentication error "User not found!". -/
theorem c1_user_auth (authUsers : List String) (user k1 k2 : String) :
    (userAuth authUsers user k1 = userAuth authUsers user k2) ∧
    (user ∈ authUsers → userAuth authUsers user k1 = Except.ok ()) ∧
    (user ∉ authUsers →
      userAuth authUsers user k1 = Except.error "User not found!") := by
  induction authUsers with
  | nil => simp [userAuth]
  | cons u rest ih =>
    refine ⟨?_, ?_, ?_⟩
    · by_cases h : user = u <;> simp [userAuth, h, ih.1]
    · intro hmem
      by_cases h : user = u
      · simp [userAuth, h]
      · have hrest : user ∈ rest := by
          rcases List.mem_cons.mp hmem with he | hr
          · exact absurd he h
          · exact hr
        simp [userAuth, h, ih.2.1 hrest]
    · intro hmem
      have h : user ≠ u := fun he => hmem (by simp [he])
      have hrest : user ∉ rest := fun hr => hmem (List.mem_cons_of_mem _ hr)
      simp [userAuth, h, ih.2.2 hrest]

/-- Witness for C1: a member of the authorized list is accepted with an
arbitrary key, a non-member is rejected. -/
theorem c1_user_auth_witness :
    userAuth ["abc123"] "abc123" "ssh-rsa AAAA" = Except.ok () ∧
    userAuth ["abc123"] "intruder" "ssh-rsa BBBB" =
      Except.error "User not found!" :=
  ⟨(c1_user_auth ["abc123"] "abc123" "ssh-rsa AAAA" "other-key").2.1 (by simp),
   (c1_user_auth ["abc123"] "intruder" "ssh-rsa BBBB" "other-key").2.2 (by simp)⟩

/-- Claim C2: the exit-status buffer is 0,0,0,0 when the child exited
with code 0; 0,0,0,1 for any nonzero numeric exit code; 0,0,0,2 when the
status string does not parse as a numeric exit (abnormal termination);
and no other buffer value is ever produced. -/
theorem c2_exit_status_mapping :
    (exitStatusBuffer (ProcState.exited 0).goString = [0, 0, 0, 0]) ∧
    (∀ c : Nat, c ≠ 0 →
      exitStatusBuffer (ProcState.exited c).goString = [0, 0, 0, 1]) ∧
    (∀ sig : Signal,
      exitStatusBuffer (ProcState.signaled sig).goString = [0, 0, 0, 2]) ∧
    (∀ st : ProcState,
      exitStatusBuffer st.goString = [0, 0, 0, 0] ∨
      exitStatusBuffer st.goString = [0, 0, 0, 1] ∨
      exitStatusBuffer st.goString = [0, 0, 0, 2]) := by
  refine ⟨by simp [exitStatusBuffer_exited], ?_, exitStatusBuffer_signaled, ?_⟩
  · intro c hc
    simp [exitStatusBuffer_exited, hc]
  · intro st
    cases st with
    | exited c =>
      rw [exitStatusBuffer_exited]
      by_cases h : c = 0 <;> simp [h]
    | signaled sig => simp [exitStatusBuffer_signaled]

/-- Witness for C2: exit code 7 maps to the buffer 0,0,0,1. -/
theorem c2_exit_status_mapping_witness :
    exitStatusBuffer (ProcState.exited 7).goString = [0, 0, 0, 1] :=
  c2_exit_status_mapping.2.1 7 (by decide)

/-- Claim C3: when the preferred-secure (https) request fails at the
transport level, rest retries exactly once against the same host with
the plaintext scheme and does not retry further; if the fallback also
fails, the error returned is the original secure-attempt error and the
fallback error is discarded.  All three backend operations (health
probe, readBlob, writeBlob) go through rest, so the property is stated
for every method, path and body. -/
theorem c3_fallback_once (send : HttpRequest → SendOutcome)
    (storeAddr storeToken method path : String) (body : Option String)
    (e1 : String)
    (h1 : send (mkReq method "https" storeAddr path storeToken body) =
      SendOutcome.transportErr e1) :
    ((rest send storeAddr storeToken method path body).1 =
      [mkReq method "https" storeAddr path storeToken body,
       mkReq method "http" storeAddr path storeToken body]) ∧
    (∀ e2, send (mkReq method "http" storeAddr path storeToken body) =
        SendOutcome.transportErr e2 →
      (rest send storeAddr storeToken method path body).2 = Except.error e1) := by
  constructor
  · cases h2 : send (mkReq method "http" storeAddr path storeToken body) with
    | ok res => by_cases h401 : res.statusCode = 401 <;> simp [rest, h1, h2, h401]
    | transportErr e2 => simp [rest, h1, h2]
  · intro e2 h2
    simp [rest, h1, h2]

/-- A transport that refuses both schemes, used to witness C3. -/
def plaintextRefusedSend : HttpRequest → SendOutcome := fun r =>
  if r.scheme = "https" then SendOutcome.transportErr "tls handshake failed"
  else SendOutcome.transportErr "connection refused"

/-- Witness for C3: with both attempts failing, exactly two requests are
issued (https then http against the same host) and the https error is
returned. -/
theorem c3_fallback_once_witness :
    (rest plaintextRefusedSend "127.0.0.1:7410" "secret" "GET" "ping" none).1 =
      [mkReq "GET" "https" "127.0.0.1:7410" "ping" "secret" none,
       mkReq "GET" "http" "127.0.0.1:7410" "ping" "secret" none] ∧
    (rest plaintextRefusedSend "127.0.0.1:7410" "secret" "GET" "ping" none).2 =
      Except.error "tls handshake failed" :=
  ⟨(c3_fallback_once plaintextRefusedSend "127.0.0.1:7410" "secret" "GET" "ping"
      none "tls handshake failed" rfl).1,
   (c3_fallback_once plaintextRefusedSend "127.0.0.1:7410" "secret" "GET" "ping"
      none "tls handshake failed" rfl).2 "connection refused" rfl⟩

/-- Claim C4: for every acknowledged exec request (payload at least 4
bytes), the spawned child is exactly
rsync --server -vlogDtprRe.iLsfx --delete . build/ where build is the
authenticated session username, with working directory the configured
build root and stdin/stdout/stderr wired to the channel; the right-hand
side does not mention the payload, so the requested command text has no
effect on what is executed. -/
theorem c4_fixed_command (buildDir build : String) (payload : List Nat)
    (st : ProcState) (hlen : 4 ≤ payload.length) :
    handleRequest buildDir build (StartOutcome.started st)
        (SshRequest.exec payload) =
      { reply := some true
        events := [Event.spawn
            { argv := ["rsync", "--server", "-vlogDtprRe.iLsfx", "--delete", ".",
                build ++ "/"]
              dir := buildDir
              stdin := StdStream.channel
              stdout := StdStream.channel
              stderr := StdStream.channelStderr },
          Event.sendExitStatus (exitStatusBuffer st.goString),
          Event.closeChannel] } := by
  have h : ¬ payload.length < 4 := by omega
  simp [handleRequest, waitedRun, rsyncSpec, h]

/-- Witness for C4 at a concrete 4-byte payload. -/
theorem c4_fixed_command_witness :
    handleRequest "/var/db/slurp/build/" "abc123" (StartOutcome.started (ProcState.exited 0))
        (SshRequest.exec [0, 0, 0, 9]) =
      { reply := some true
        events := [Event.spawn
            { argv := ["rsync", "--server", "-vlogDtprRe.iLsfx", "--delete", ".",
                "abc123" ++ "/"]
              dir := "/var/db/slurp/build/"
              stdin := StdStream.channel
              stdout := StdStream.channel
              stderr := StdStream.channelStderr },
          Event.sendExitStatus (exitStatusBuffer (ProcState.exited 0).goString),
          Event.closeChannel] } :=
  c4_fixed_command "/var/db/slurp/build/" "abc123" [0, 0, 0, 9]
    (ProcState.exited 0) (by decide)

/-- Claim C5: an exec request whose payload is shorter than 4 bytes is
not acknowledged (req.Reply is never called, because the loop continues)
and no child process is spawned (no events on the channel). -/
theorem c5_short_payload (buildDir build : String) (outcome : StartOutcome)
    (payload : List Nat) (hlen : payload.length < 4) :
    handleRequest buildDir build outcome (SshRequest.exec payload) =
      { reply := none, events := [] } := by
  simp [handleRequest, hlen]

/-- Witness for C5 at a concrete 3-byte payload. -/
theorem c5_short_payload_witness :
    handleRequest "/var/db/slurp/build/" "abc123" StartOutcome.startFailed
        (SshRequest.exec [1, 2, 3]) = { reply := none, events := [] } :=
  c5_short_payload "/var/db/slurp/build/" "abc123" StartOutcome.startFailed
    [1, 2, 3] (by decide)

/-- Claim C6: host-key provisioning is idempotent.  If a file exists at
the configured path the filesystem is returned unchanged (so its content
is unchanged across restarts); only when the file is absent is the key
pair generated, the parent directory created, and the PEM private key
written with owner-only 0600 permission, after which a second run leaves
everything unchanged. -/
theorem c6_host_key (keyPath : String) (fs : FS) (gen : GenOutcome) :
    ((fs.stat keyPath).isSome = true →
      ensureHostKey keyPath gen fs = (fs, Except.ok ())) ∧
    (∀ pubKey pemPrivate, fs.stat keyPath = none →
      gen = GenOutcome.ok pubKey pemPrivate →
      (((ensureHostKey keyPath gen fs).1.stat keyPath =
          some { content := pemPrivate, perm := 0o600 }) ∧
       dirOf keyPath ∈ (ensureHostKey keyPath gen fs).1.dirs ∧
       (∀ gen2, ensureHostKey keyPath gen2 (ensureHostKey keyPath gen fs).1 =
         ((ensureHostKey keyPath gen fs).1, Except.ok ())))) := by
  constructor
  · intro h
    cases hstat : fs.stat keyPath with
    | none => rw [hstat] at h; simp at h
    | some e => simp [ensureHostKey, hstat]
  · intro pubKey pemPrivate hstat hgen
    subst hgen
    have hres : ensureHostKey keyPath (GenOutcome.ok pubKey pemPrivate) fs =
        ({ files := (keyPath, { content := pemPrivate, perm := 0o600 }) :: fs.files
           dirs := dirOf keyPath :: fs.dirs }, Except.ok ()) := by
      simp [ensureHostKey, hstat]
    rw [hres]
    refine ⟨?_, ?_, ?_⟩
    · simp [FS.stat, findFile]
    · simp
    · intro gen2
      simp [ensureHostKey, FS.stat, findFile]

/-- Witness for C6: with the key file already present, a restart leaves
the filesystem (and so the key file content) unchanged even though fresh
key material was generated. -/
theorem c6_host_key_witness :
    ensureHostKey "/var/db/slurp/slurp_rsa" (GenOutcome.ok "pub" "NEWPEM")
        { files := [("/var/db/slurp/slurp_rsa",
            { content := "OLDPEM", perm := 0o600 })]
          dirs := ["/var/db/slurp"] } =
      ({ files := [("/var/db/slurp/slurp_rsa",
            { content := "OLDPEM", perm := 0o600 })]
         dirs := ["/var/db/slurp"] }, Except.ok ()) :=
  (c6_host_key "/var/db/slurp/slurp_rsa"
      { files := [("/var/db/slurp/slurp_rsa",
          { content := "OLDPEM", perm := 0o600 })]
        dirs := ["/var/db/slurp"] }
      (GenOutcome.ok "pub" "NEWPEM")).1 (by decide)

/-- Claim C7: for every backend call and every HTTP method, a response
with status 401 (whether it arrived on the first attempt or on the
fallback) is turned into the fixed, descriptive authorization error,
while every other response is returned to the caller unconverted. -/
theorem c7_unauthorized (send : HttpRequest → SendOutcome)
    (storeAddr storeToken method path : String) (body : Option String)
    (res : HttpResponse) :
    ((send (mkReq method "https" storeAddr path storeToken body) =
        SendOutcome.ok res →
      ((res.statusCode = 401 →
        (rest send storeAddr storeToken method path body).2 =
          Except.error authTokenErrMsg) ∧
       (res.statusCode ≠ 401 →
        (rest send storeAddr storeToken method path body).2 =
          Except.ok res)))) ∧
    (∀ e1, send (mkReq method "https" storeAddr path storeToken body) =
        SendOutcome.transportErr e1 →
      send (mkReq method "http" storeAddr path storeToken body) =
        SendOutcome.ok res →
      ((res.statusCode = 401 →
        (rest send storeAddr storeToken method path body).2 =
          Except.error authTokenErrMsg) ∧
       (res.statusCode ≠ 401 →
        (rest send storeAddr storeToken method path body).2 =
          Except.ok res))) := by
  constructor
  · intro h1
    constructor <;> intro h401 <;> simp [rest, h1, h401]
  · intro e1 h1 h2
    constructor <;> intro h401 <;> simp [rest, h1, h2, h401]

/-- A transport that always answers 401, used to witness C7. -/
def unauthorizedSend : HttpRequest → SendOutcome :=
  fun _ => SendOutcome.ok { statusCode := 401, body := "" }

/-- Witness for C7: a 401 response becomes the fixed authorization
error. -/
theorem c7_unauthorized_witness :
    (rest unauthorizedSend "127.0.0.1:7410" "" "GET" "ping" none).2 =
      Except.error authTokenErrMsg :=
  ((c7_unauthorized unauthorizedSend "127.0.0.1:7410" "" "GET" "ping" none
      { statusCode := 401, body := "" }).1 rfl).1 rfl

/-- Claim C8 (code-bug evidence): backend.Initialize maps the insecure
hoarder scheme to a preferred plain-http transport, yet the first
request rest issues for every backend call carries the https scheme
unconditionally, so the selected preference never reaches request
construction (the hoarder struct in hoarder.go does not even declare
the proto field that backend.go initializes). -/
theorem c8_scheme_divergence :
    schemeSelect "hoarder" = Proto.http ∧
    (∀ (send : HttpRequest → SendOutcome)
        (storeAddr storeToken method path : String) (body : Option String),
      ((rest send storeAddr storeToken method path body).1.map
          (fun r => r.scheme)).head? = some "https") := by
  refine ⟨rfl, ?_⟩
  intro send storeAddr storeToken method path body
  cases h1 : send (mkReq method "https" storeAddr path storeToken body) with
  | ok res =>
    simp only [rest, h1]
    by_cases h401 : res.statusCode = 401 <;> simp [h401, mkReq]
  | transportErr e1 =>
    cases h2 : send (mkReq method "http" storeAddr path storeToken body) with
    | ok res =>
      simp only [rest, h1, h2]
      by_cases h401 : res.statusCode = 401 <;> simp [h401, mkReq]
    | transportErr e2 =>
      simp only [rest, h1, h2]
      simp [mkReq]

/-- Claim C9: whenever rest returns a nil response with a non-nil error
(both transport attempts failed, or the status was 401), readBlob
dereferences the nil response to take its Body field, so a failed blob
read never returns the error through a normal error result. -/
theorem c9_read_blob_nil_deref (send : HttpRequest → SendOutcome)
    (storeAddr storeToken blobId e : String)
    (h : (rest send storeAddr storeToken "GET" ("blobs/" ++ blobId) none).2 =
      Except.error e) :
    readBlob send storeAddr storeToken blobId = BlobReadOutcome.nilDeref := by
  unfold readBlob
  rw [h]

/-- A transport that is unreachable on both schemes, used to witness C9. -/
def downSend : HttpRequest → SendOutcome :=
  fun _ => SendOutcome.transportErr "connection refused"

/-- Witness for C9: with the backend unreachable, readBlob hits the nil
dereference instead of returning the transport error. -/
theorem c9_read_blob_nil_deref_witness :
    readBlob downSend "127.0.0.1:7410" "secret" "abc123" =
      BlobReadOutcome.nilDeref :=
  c9_read_blob_nil_deref downSend "127.0.0.1:7410" "secret" "abc123"
    "connection refused" rfl

/-- Claim C10: if starting the rsync child fails (error from Start or a
nil process handle), the channel is closed without any exit-status
request; an exit-status request appears on the channel only when a
child was started and waited on, and then the close follows the
exit-status request. -/
theorem c10_close_discipline (buildDir build : String) :
    (waitedRun buildDir build StartOutcome.startFailed =
      [Event.closeChannel]) ∧
    (∀ st, waitedRun buildDir build (StartOutcome.started st) =
      [Event.spawn (rsyncSpec buildDir build),
       Event.sendExitStatus (exitStatusBuffer st.goString),
       Event.closeChannel]) ∧
    (∀ outcome buf,
      Event.sendExitStatus buf ∈ waitedRun buildDir build outcome →
      ∃ st, outcome = StartOutcome.started st) := by
  refine ⟨rfl, fun st => rfl, ?_⟩
  intro outcome buf hmem
  cases outcome with
  | startFailed => simp [waitedRun] at hmem
  | started st => exact ⟨st, rfl⟩

/-- Witness for C10: a failed start yields only the close event, and an
exit-status event implies a started process. -/
theorem c10_close_discipline_witness :
    waitedRun "/var/db/slurp/build/" "abc123" StartOutcome.startFailed =
      [Event.closeChannel] ∧
    (∃ st, StartOutcome.started (ProcState.exited 0) =
      StartOutcome.started st) :=
  ⟨(c10_close_discipline "/var/db/slurp/build/" "abc123").1,
   (c10_close_discipline "/var/db/slurp/build/" "abc123").2.2
     (StartOutcome.started (ProcState.exited 0))
     (exitStatusBuffer (ProcState.exited 0).goString)
     (by simp [waitedRun])⟩

end Slurp
